import Mathlib

/- Formal model of the `cpython-tool` Conan recipe (`src/conanfile.py`).

   Paths are modelled as component lists (no "." or ".." components, which
   the recipe never produces); the filesystem is an association list from
   absolute paths to entries, where the first binding for a key wins.
   Python-level exceptions escaping a phase are modelled by `raised` flags;
   external command exit codes and cross-compilation detection are inputs. -/

/-- A filesystem path as handed to the `os.path` functions: an absolute
    flag plus its components. -/
structure FPath where
  absolute : Bool
  comps : List String
deriving DecidableEq, Repr

/-- `os.path.abspath` relative to a current working directory `cwd`
    (absolute paths are returned unchanged; relative ones are joined onto
    `cwd`; no dot-segment normalisation is needed for the recipe's paths). -/
def abspath (cwd : List String) (p : FPath) : List String :=
  if p.absolute then p.comps else cwd ++ p.comps

/-- A filesystem entry: a regular file with its content, a directory, or a
    symbolic link storing the target path exactly as given to `os.symlink`. -/
inductive Entry where
  | file (content : String)
  | dir
  | symlink (target : FPath)
deriving DecidableEq, Repr

def Entry.isSymlink : Entry → Bool
  | .symlink _ => true
  | _ => false

/-- The filesystem: an association list keyed by absolute paths; earlier
    bindings shadow later ones. -/
abbrev FS := List (List String × Entry)

def FS.lookup : FS → List String → Option Entry
  | [], _ => none
  | (k, e) :: rest, p => if p = k then some e else FS.lookup rest p

def FS.insert (fs : FS) (p : List String) (e : Entry) : FS :=
  (p, e) :: fs

/-- `os.unlink`: drop every binding at path `p`. -/
def FS.erase : FS → List String → FS
  | [], _ => []
  | (k, e) :: rest, p => if k = p then FS.erase rest p else (k, e) :: FS.erase rest p

/-- `os.path.islink`. -/
def FS.islink (fs : FS) (p : List String) : Bool :=
  match fs.lookup p with
  | some (Entry.symlink _) => true
  | _ => false

/-- `os.readlink`: the stored target of a symlink entry. -/
def FS.readlink (fs : FS) (p : List String) : Option FPath :=
  match fs.lookup p with
  | some (Entry.symlink t) => some t
  | _ => none

/-- Resolve a path by following symlink entries (a link target is resolved
    relative to the link's parent directory), with fuel bounding the chain
    length as the OS symlink-loop limit does. -/
def FS.resolve (fs : FS) : Nat → List String → Option (List String × Entry)
  | 0, _ => none
  | n + 1, p =>
    match fs.lookup p with
    | some (Entry.symlink t) => fs.resolve n (abspath p.dropLast t)
    | some e => some (p, e)
    | none => none

/-- `os.path.exists`: the path resolves (through symlinks) to an entry. -/
def FS.pexists (fs : FS) (p : List String) : Bool :=
  (fs.resolve 40 p).isSome

/-- `pathStartsWith p q`: the path `p` is at or below the path `q`. -/
def pathStartsWith : List String → List String → Bool
  | _, [] => true
  | [], _ :: _ => false
  | a :: p, b :: q => if a = b then pathStartsWith p q else false

/-- Re-root every entry lying at or below `q` to the corresponding path at
    or below `d` (the copying core of `shutil.copytree`). -/
def relocate : FS → List String → List String → FS
  | [], _, _ => []
  | (k, e) :: rest, q, d =>
    if pathStartsWith k q then (d ++ k.drop q.length, e) :: relocate rest q d
    else relocate rest q d

/-- Model of `shutil.copytree(src, dst, dirs_exist_ok=True)`: `src` must
    resolve to a directory (otherwise the call raises, `none`); the entries
    of its subtree are mirrored below `dst`, existing entries below `dst`
    that are not overwritten are kept.  The recipe only copies trees whose
    entries are plain files and directories. -/
def copytreeFS (fs : FS) (src dst : List String) : Option FS :=
  match fs.resolve 40 src with
  | some (q, Entry.dir) => some (relocate fs q dst ++ fs)
  | _ => none

/-- Model of `shutil.copy2(src, dst)` where `dst` does not exist (the only
    situation in which the recipe calls it): `src` must resolve to a regular
    file (otherwise the call raises, `none`), whose content is written at
    `dst`. -/
def copy2FS (fs : FS) (src dst : List String) : Option FS :=
  match fs.resolve 40 src with
  | some (_, Entry.file c) => some (fs.insert dst (Entry.file c))
  | _ => none

def renderPath (p : List String) : String :=
  String.intercalate "/" p

/-- Warning `f"{dest} exists and is not a symlink, skipping"`. -/
def msgSkip (dest : List String) : String :=
  renderPath dest ++ " exists and is not a symlink, skipping"

/-- Warning `f"Symlink failed ({e}), using copy fallback"` (exception text
    elided). -/
def msgFallback : String :=
  "Symlink failed, using copy fallback"

/-- Warning that zero-copy semantics were not achieved. -/
def msgNotZeroCopy : String :=
  "Used copy instead of symlink (not zero-copy)"

/-- Info `f"Created symlink: {dest} -> {source}"`. -/
def msgCreated (dest source : List String) : String :=
  "Created symlink: " ++ renderPath dest ++ " -> " ++ renderPath source

/-- Result of one `_create_symlink` call: the filesystem, the warnings and
    infos emitted on `self.output`, and whether an exception escaped. -/
structure CSResult where
  fs : FS
  warnings : List String
  infos : List String
  raised : Bool
deriving DecidableEq, Repr

/-- The `try` block and `except OSError` handler of `_create_symlink`
    (lines 84-99).  On Windows and elsewhere the code performs the same
    `os.symlink(source, dest)` call (only the `target_is_directory` hint
    differs), modelled uniformly; `symlinkOk` says whether that call
    succeeds or raises `OSError`.  On failure the handler warns and falls
    back to `shutil.copytree` / `shutil.copy2`; an error raised by the
    fallback itself is uncaught (`raised := true`). -/
def attemptLink (fs : FS) (cwd : List String) (source : FPath)
    (destAbs : List String) (is_directory symlinkOk : Bool) : CSResult :=
  if symlinkOk then
    { fs := fs.insert destAbs (Entry.symlink source),
      warnings := [], infos := [msgCreated destAbs (abspath cwd source)],
      raised := false }
  else if is_directory then
    match copytreeFS fs (abspath cwd source) destAbs with
    | some fs2 => { fs := fs2, warnings := [msgFallback, msgNotZeroCopy],
                    infos := [], raised := false }
    | none => { fs := fs, warnings := [msgFallback], infos := [], raised := true }
  else
    match copy2FS fs (abspath cwd source) destAbs with
    | some fs2 => { fs := fs2, warnings := [msgFallback, msgNotZeroCopy],
                    infos := [], raised := false }
    | none => { fs := fs, warnings := [msgFallback], infos := [], raised := true }

/-- Model of `_create_symlink(self, source, dest, is_directory)`
    (lines 68-99).  The guard `os.path.exists(dest) or os.path.islink(dest)`
    holds exactly when an entry is present at `dest` (a present non-link
    entry satisfies `exists`; a present link satisfies `islink`; an absent
    path satisfies neither), so the three branches are driven by the entry
    at `dest`: a symlink whose `os.path.abspath`-resolved target equals the
    resolved source is left alone; any other symlink is unlinked and the
    link is re-attempted; a non-symlink entry is skipped with a warning. -/
def create_symlink (fs : FS) (cwd : List String) (source dest : FPath)
    (is_directory symlinkOk : Bool) : CSResult :=
  let destAbs := abspath cwd dest
  match fs.lookup destAbs with
  | some (Entry.symlink current_target) =>
    if abspath cwd source = abspath cwd current_target then
      { fs := fs, warnings := [], infos := [], raised := false }
    else
      attemptLink (fs.erase destAbs) cwd source destAbs is_directory symlinkOk
  | some _ =>
    { fs := fs, warnings := [msgSkip destAbs], infos := [], raised := false }
  | none => attemptLink fs cwd source destAbs is_directory symlinkOk

example :
    (create_symlink [] [] ⟨true, ["p", "bin"]⟩ ⟨true, ["p", "t", "bin"]⟩ true true).fs
      = [(["p", "t", "bin"], Entry.symlink ⟨true, ["p", "bin"]⟩)] := by decide

example :
    (create_symlink [(["p", "d"], Entry.file "x")] [] ⟨true, ["p", "s"]⟩
      ⟨true, ["p", "d"]⟩ false true).fs = [(["p", "d"], Entry.file "x")] := by decide

example :
    (create_symlink [(["p", "s"], Entry.file "x")] [] ⟨true, ["p", "s"]⟩
      ⟨true, ["p", "d"]⟩ false false).fs
      = [(["p", "d"], Entry.file "x"), (["p", "s"], Entry.file "x")] := by decide

/-- Declared recipe options (lines 38-49).  `fips` is `none` once removed
    from the effective option set by `rm_safe`; `optimize` ranges over the
    enumerated strings "0".."3". -/
structure OptionsState where
  shared : Bool
  fips : Option Bool
  optimize : String
  enable_zero_copy : Bool
deriving DecidableEq, Repr

/-- Model of `config_options` (lines 59-62): when cross-compilation is
    detected, `self.options.rm_safe("fips")` removes `fips` from the
    effective option set; afterwards `check_min_cppstd(self, 11)` raises
    `ConanInvalidConfiguration` when the configured cppstd is below 11
    (`cppstdOk` is that check's outcome). -/
def config_options (crossBuilding cppstdOk : Bool) (opts : OptionsState) :
    Except String OptionsState :=
  let opts := if crossBuilding then { opts with fips := none } else opts
  if cppstdOk then Except.ok opts
  else Except.error "ConanInvalidConfiguration: current cppstd is lower than 11"

/-- The three build strategies of the `build` method. -/
inductive BuildStrategy where
  | unixAutotools
  | windowsScript
  | macosFramework
deriving DecidableEq, Repr

/-- Model of the OS dispatch of `build` (lines 117-144): the `if`/`elif`
    chain on `self.settings.os` invokes the autotools sequence for Linux
    and FreeBSD, the `PCbuild/build.bat` vendor script for Windows, and the
    framework-enabled configure/make/install sequence for Macos; any other
    value falls through invoking no strategy.  The result lists the
    strategies invoked, in order. -/
def build (os : String) : List BuildStrategy :=
  if os = "Linux" ∨ os = "FreeBSD" then [BuildStrategy.unixAutotools]
  else if os = "Windows" then [BuildStrategy.windowsScript]
  else if os = "Macos" then [BuildStrategy.macosFramework]
  else []

/-- The class attribute `toolchain_path = "cpython-toolchain"` (line 54). -/
def toolchain_path : String := "cpython-toolchain"

/-- Model of `conan.tools.files.copy(self, pattern, dst=dst, src=...)`:
    the files matched by the pattern in the source tree (abstracted as the
    list `matches` of relative path / content pairs, since they depend on
    build outputs outside this repository) are written below `dst`, and the
    destination directory itself is created when anything matched. -/
def conanCopy (fs : FS) (dst : List String) (ms : List (List String × String)) : FS :=
  if ms.isEmpty then fs
  else ms.foldl (fun acc m => acc.insert (dst ++ m.1) (Entry.file m.2))
    (fs.insert dst Entry.dir)

/-- The loop of lines 184-188: for each `item` of `["bin", "lib", "include"]`,
    when `os.path.exists` holds for the primary directory
    `package_folder/item`, `_create_symlink(source_item, dest_item,
    is_directory=True)` is invoked; an exception escaping `_create_symlink`
    aborts the whole `package` method.  Returns the filesystem, the
    accumulated warnings and whether an exception escaped. -/
def zeroCopyLoop (fs : FS) (pf troot : List String) (symlinkOk : Bool) :
    List String → FS × List String × Bool
  | [] => (fs, [], false)
  | item :: rest =>
    let source_item := pf ++ [item]
    let dest_item := troot ++ [item]
    if fs.pexists source_item then
      let r := create_symlink fs [] ⟨true, source_item⟩ ⟨true, dest_item⟩ true symlinkOk
      if r.raised then (r.fs, r.warnings, true)
      else
        let rec' := zeroCopyLoop r.fs pf troot symlinkOk rest
        (rec'.1, r.warnings ++ rec'.2.1, rec'.2.2)
    else zeroCopyLoop fs pf troot symlinkOk rest

/-- Result of the `package` method: final package-folder filesystem,
    warnings, whether a fallback-copy error escaped `_create_symlink`,
    whether the Trivy scan was invoked, and whether that scan raised
    (`self.run` raises `ConanException` on a nonzero exit). -/
structure PackageResult where
  fs : FS
  warnings : List String
  symlinkRaised : Bool
  scanRan : Bool
  scanFatal : Bool
deriving DecidableEq, Repr

/-- A package produced by a `package()` call that raised is not created /
    publishable by the package manager. -/
def PackageResult.publishable (r : PackageResult) : Bool :=
  !r.symlinkRaised && !r.scanFatal

/-- The staging part of `package` (lines 159-191).  The three `copy`
    staging calls place the matched binary, library and stdlib files below
    `bin`, `lib` and `lib/python3.12` of the package folder `pf` (the
    Windows and non-Windows branches differ only in patterns and source
    dirs, abstracted by the match lists).  When `enable_zero_copy` is set,
    the mirror root `pf/cpython-toolchain` is created if absent and the
    symlink loop of lines 184-188 runs.  The `hasattr(self.options,
    'enable_sbom')` guard of line 190 is `False` (no `enable_sbom` option
    is declared), so no `sbom.json` is copied.  Returns the filesystem, the
    warnings, and whether an exception escaped the symlink step. -/
def packageStage (fs0 : FS) (pf : List String)
    (binMatches libMatches stdlibMatches : List (List String × String))
    (enable_zero_copy symlinkOk : Bool) : FS × List String × Bool :=
  let fs1 := conanCopy fs0 (pf ++ ["bin"]) binMatches
  let fs2 := conanCopy fs1 (pf ++ ["lib"]) libMatches
  let fs3 := conanCopy fs2 (pf ++ ["lib", "python3.12"]) stdlibMatches
  if enable_zero_copy then
    let troot := pf ++ [toolchain_path]
    let fsA := if fs3.pexists troot then fs3 else fs3.insert troot Entry.dir
    zeroCopyLoop fsA pf troot symlinkOk ["bin", "lib", "include"]
  else (fs3, [], false)

/-- Model of `package` (lines 159-197): the staging step followed by the
    Trivy scan.  An exception escaping the staging step aborts `package`
    before the scan; otherwise, when `can_run` holds, the scan runs over
    the package folder with `--exit-code 1`, and `self.run` raises exactly
    when the scan's exit code `trivyExit` is nonzero. -/
def packagePhase (fs0 : FS) (pf : List String)
    (binMatches libMatches stdlibMatches : List (List String × String))
    (enable_zero_copy canRun symlinkOk : Bool) (trivyExit : Nat) : PackageResult :=
  let step := packageStage fs0 pf binMatches libMatches stdlibMatches
    enable_zero_copy symlinkOk
  if step.2.2 then
    { fs := step.1, warnings := step.2.1, symlinkRaised := true,
      scanRan := false, scanFatal := false }
  else if canRun then
    { fs := step.1, warnings := step.2.1, symlinkRaised := false,
      scanRan := true, scanFatal := trivyExit != 0 }
  else
    { fs := step.1, warnings := step.2.1, symlinkRaised := false,
      scanRan := false, scanFatal := false }

/-- The consumer-facing information published by `package_info`:
    `cpp_info` directories, the `tools.python:*` conf entries, and the
    build/run environment definitions and PATH appends. -/
structure ConsumerInfo where
  bindirs : List (List String)
  libdirs : List (List String)
  confPython : List String
  confOptimize : String
  buildenvPathDefines : List (String × List String)
  runenvPathDefines : List (String × List String)
  buildenvPathAppends : List (String × List String)
  runenvPathAppends : List (String × List String)
  buildenvDefines : List (String × String)
deriving DecidableEq, Repr

/-- Model of `package_info` (lines 199-231).  `bindirs`/`libdirs` point at
    the primary `bin`/`lib` of the package folder `pf`; the interpreter name
    is `python.exe` on Windows and `python` otherwise, and its path under
    the primary `bin` is published as `tools.python:python` together with
    `tools.python:optimize`; `PYTHONHOME` is defined in both environments;
    when `enable_zero_copy` is set, `PYTHON_ROOT` and a `PATH` append for
    the mirror's `bin` are added.  Line 229 reads `self.options.fips`,
    which raises when the option was removed (`fips = none`); the returned
    flag records that raise, with the info built up to that point. -/
def package_info (pf : List String) (osStr : String) (optimize : String)
    (enable_zero_copy : Bool) (fips : Option Bool) : ConsumerInfo × Bool :=
  let bin_dir := pf ++ ["bin"]
  let interpreter := if osStr = "Windows" then "python.exe" else "python"
  let python_exe := bin_dir ++ [interpreter]
  let base : ConsumerInfo :=
    { bindirs := [bin_dir], libdirs := [pf ++ ["lib"]],
      confPython := python_exe, confOptimize := optimize,
      buildenvPathDefines := [("PYTHONHOME", pf)],
      runenvPathDefines := [("PYTHONHOME", pf)],
      buildenvPathAppends := [], runenvPathAppends := [],
      buildenvDefines := [] }
  let ci :=
    if enable_zero_copy then
      let troot := pf ++ [toolchain_path]
      let toolchain_bin := troot ++ ["bin"]
      { base with
        buildenvPathDefines := base.buildenvPathDefines ++ [("PYTHON_ROOT", troot)],
        runenvPathDefines := base.runenvPathDefines ++ [("PYTHON_ROOT", troot)],
        buildenvPathAppends := [("PATH", toolchain_bin)],
        runenvPathAppends := [("PATH", toolchain_bin)] }
    else base
  match fips with
  | none => (ci, true)
  | some b =>
    (if b then
      { ci with buildenvDefines := ci.buildenvDefines ++ [("PYTHON_FIPS", "1")] }
    else ci, false)

/-- Model of `_get_python_executable` (lines 234-244). -/
def get_python_executable (pf : List String) (osStr : String)
    (enable_zero_copy : Bool) : List String :=
  let python_name := if osStr = "Windows" then "python.exe" else "python"
  if enable_zero_copy then pf ++ [toolchain_path, "bin", python_name]
  else pf ++ ["bin", python_name]

theorem FS.lookup_insert (fs : FS) (k p : List String) (e : Entry) :
    (fs.insert k e).lookup p = if p = k then some e else fs.lookup p := rfl

theorem FS.lookup_erase (fs : FS) (k p : List String) :
    (fs.erase k).lookup p = if p = k then none else fs.lookup p := by
  induction fs with
  | nil => simp [FS.erase, FS.lookup]
  | cons kv rest ih =>
    obtain ⟨k', e'⟩ := kv
    by_cases h1 : k' = k <;> by_cases h2 : p = k' <;> by_cases h3 : p = k <;>
      simp_all [FS.erase, FS.lookup]

theorem FS.lookup_append (a b : FS) (p : List String) :
    FS.lookup (a ++ b) p =
      match FS.lookup a p with
      | some e => some e
      | none => FS.lookup b p := by
  induction a with
  | nil => simp [FS.lookup]
  | cons kv rest ih =>
    obtain ⟨k, e⟩ := kv
    by_cases h : p = k <;> simp [FS.lookup, h, ih]

theorem pathStartsWith_append (q s : List String) :
    pathStartsWith (q ++ s) q = true := by
  induction q with
  | nil => cases s <;> simp [pathStartsWith]
  | cons a q ih => simp [pathStartsWith, ih]

theorem pathStartsWith_refl (p : List String) : pathStartsWith p p = true := by
  have := pathStartsWith_append p []
  simpa using this

theorem pathStartsWith_iff (p q : List String) :
    pathStartsWith p q = true ↔ ∃ s, p = q ++ s := by
  induction q generalizing p with
  | nil =>
    cases p with
    | nil => simp [pathStartsWith]
    | cons a p => simp [pathStartsWith]
  | cons b q ih =>
    cases p with
    | nil => simp [pathStartsWith]
    | cons a p =>
      by_cases h : a = b
      · subst h
        simp [pathStartsWith, ih]
      · simp [pathStartsWith, h]

theorem pathStartsWith_mono (p q r : List String)
    (h : pathStartsWith p (q ++ r) = true) : pathStartsWith p q = true := by
  obtain ⟨s, rfl⟩ := (pathStartsWith_iff p (q ++ r)).1 h
  rw [List.append_assoc]
  exact pathStartsWith_append q (r ++ s)

theorem relocate_lookup_not_under (l : FS) (q d p : List String)
    (h : pathStartsWith p d = false) : (relocate l q d).lookup p = none := by
  induction l with
  | nil => rfl
  | cons kv rest ih =>
    obtain ⟨k, e⟩ := kv
    by_cases hk : pathStartsWith k q = true
    · have hne : p ≠ d ++ k.drop q.length := by
        intro he
        rw [he, pathStartsWith_append] at h
        cases h
      simp [relocate, hk, FS.lookup, hne, ih]
    · simp [relocate, hk, ih]

theorem relocate_lookup_under (l : FS) (q d s : List String) :
    (relocate l q d).lookup (d ++ s) = l.lookup (q ++ s) := by
  induction l with
  | nil => rfl
  | cons kv rest ih =>
    obtain ⟨k, e⟩ := kv
    by_cases hk : pathStartsWith k q = true
    · obtain ⟨s', rfl⟩ := (pathStartsWith_iff k q).1 hk
      by_cases h2 : s = s'
      · subst h2
        simp [relocate, hk, FS.lookup, List.drop_left]
      · have hd : d ++ s ≠ d ++ s' := fun he => h2 (List.append_cancel_left he)
        have hq : q ++ s ≠ q ++ s' := fun he => h2 (List.append_cancel_left he)
        simp [relocate, hk, FS.lookup, List.drop_left, hd, hq, ih]
    · have hne : q ++ s ≠ k := by
        intro he
        rw [← he, pathStartsWith_append] at hk
        exact hk rfl
      simp [relocate, hk, FS.lookup, hne, ih]

theorem FS.resolve_lookup (fs : FS) :
    ∀ (n : Nat) (p q : List String) (e : Entry),
      fs.resolve n p = some (q, e) → fs.lookup q = some e ∧ e.isSymlink = false := by
  intro n
  induction n with
  | zero => intro p q e h; simp [FS.resolve] at h
  | succ n ih =>
    intro p q e h
    cases hl : fs.lookup p with
    | none => simp [FS.resolve, hl] at h
    | some e' =>
      cases e' with
      | symlink t =>
        simp [FS.resolve, hl] at h
        exact ih _ _ _ h
      | file c =>
        simp [FS.resolve, hl] at h
        obtain ⟨rfl, rfl⟩ := h
        exact ⟨hl, rfl⟩
      | dir =>
        simp [FS.resolve, hl] at h
        obtain ⟨rfl, rfl⟩ := h
        exact ⟨hl, rfl⟩

theorem FS.resolve_dir (fs : FS) (p : List String) (n : Nat)
    (h : fs.lookup p = some Entry.dir) : fs.resolve (n + 1) p = some (p, Entry.dir) := by
  simp [FS.resolve, h]

theorem FS.pexists_dir (fs : FS) (p : List String)
    (h : fs.lookup p = some Entry.dir) : fs.pexists p = true := by
  rw [FS.pexists, show (40 : Nat) = 39 + 1 from rfl, FS.resolve_dir fs p 39 h]
  rfl

theorem FS.pexists_none (fs : FS) (p : List String)
    (h : fs.lookup p = none) : fs.pexists p = false := by
  rw [FS.pexists, show (40 : Nat) = 39 + 1 from rfl]
  simp [FS.resolve, h]

theorem FS.resolve_file (fs : FS) (p : List String) (n : Nat) (c : String)
    (h : fs.lookup p = some (Entry.file c)) :
    fs.resolve (n + 1) p = some (p, Entry.file c) := by
  simp [FS.resolve, h]

theorem create_symlink_correct_link (fs : FS) (cwd : List String)
    (source dest : FPath) (b ok : Bool) (t : FPath)
    (h : fs.lookup (abspath cwd dest) = some (Entry.symlink t))
    (he : abspath cwd source = abspath cwd t) :
    create_symlink fs cwd source dest b ok = ⟨fs, [], [], false⟩ := by
  simp [create_symlink, h, he]

theorem create_symlink_nonlink (fs : FS) (cwd : List String)
    (source dest : FPath) (b ok : Bool) (e : Entry)
    (h : fs.lookup (abspath cwd dest) = some e) (hs : e.isSymlink = false) :
    create_symlink fs cwd source dest b ok
      = ⟨fs, [msgSkip (abspath cwd dest)], [], false⟩ := by
  cases e with
  | symlink t => simp [Entry.isSymlink] at hs
  | file c => simp [create_symlink, h]
  | dir => simp [create_symlink, h]

theorem copytreeFS_lookup_dst (fs : FS) (src dst : List String) (fs2 : FS)
    (h : copytreeFS fs src dst = some fs2) : fs2.lookup dst = some Entry.dir := by
  unfold copytreeFS at h
  cases hr : fs.resolve 40 src with
  | none => rw [hr] at h; cases h
  | some qe =>
    obtain ⟨q, e⟩ := qe
    rw [hr] at h
    cases e with
    | file c => cases h
    | symlink t => cases h
    | dir =>
      have hq := (FS.resolve_lookup fs 40 src q Entry.dir hr).1
      have hrel := relocate_lookup_under fs q dst []
      simp only [List.append_nil] at hrel
      injection h with h
      subst h
      rw [FS.lookup_append, hrel, hq]

theorem copy2FS_lookup_dst (fs : FS) (src dst : List String) (fs2 : FS)
    (h : copy2FS fs src dst = some fs2) :
    ∃ c, fs2.lookup dst = some (Entry.file c) := by
  unfold copy2FS at h
  cases hr : fs.resolve 40 src with
  | none => rw [hr] at h; cases h
  | some qe =>
    obtain ⟨q, e⟩ := qe
    rw [hr] at h
    cases e with
    | file c =>
      injection h with h
      subst h
      exact ⟨c, by simp [FS.lookup_insert]⟩
    | dir => cases h
    | symlink t => cases h

theorem attemptLink_idem (fs : FS) (cwd : List String) (source dest : FPath)
    (b ok : Bool) (hnone : fs.lookup (abspath cwd dest) = none) :
    (create_symlink (attemptLink fs cwd source (abspath cwd dest) b ok).fs
        cwd source dest b ok).fs
      = (attemptLink fs cwd source (abspath cwd dest) b ok).fs := by
  cases ok with
  | true =>
    have hl : ((attemptLink fs cwd source (abspath cwd dest) b true).fs).lookup
        (abspath cwd dest) = some (Entry.symlink source) := by
      simp [attemptLink, FS.lookup_insert]
    rw [create_symlink_correct_link _ cwd source dest b true source hl rfl]
  | false =>
    cases b with
    | true =>
      cases hcp : copytreeFS fs (abspath cwd source) (abspath cwd dest) with
      | some fs2 =>
        have hfs : (attemptLink fs cwd source (abspath cwd dest) true false).fs = fs2 := by
          simp [attemptLink, hcp]
        rw [hfs, create_symlink_nonlink fs2 cwd source dest true false Entry.dir
          (copytreeFS_lookup_dst fs _ _ fs2 hcp) rfl]
      | none =>
        have hfs : (attemptLink fs cwd source (abspath cwd dest) true false).fs = fs := by
          simp [attemptLink, hcp]
        rw [hfs]
        simp [create_symlink, hnone, attemptLink, hcp]
    | false =>
      cases hcp : copy2FS fs (abspath cwd source) (abspath cwd dest) with
      | some fs2 =>
        have hfs : (attemptLink fs cwd source (abspath cwd dest) false false).fs = fs2 := by
          simp [attemptLink, hcp]
        obtain ⟨c, hc⟩ := copy2FS_lookup_dst fs _ _ fs2 hcp
        rw [hfs, create_symlink_nonlink fs2 cwd source dest false false (Entry.file c) hc rfl]
      | none =>
        have hfs : (attemptLink fs cwd source (abspath cwd dest) false false).fs = fs := by
          simp [attemptLink, hcp]
        rw [hfs]
        simp [create_symlink, hnone, attemptLink, hcp]

/-- C2: the Packager's symlink step is idempotent: a second
    `_create_symlink` call with the identical source, destination, flag and
    symlink outcome leaves the filesystem unchanged; in particular, when
    the destination already is a symlink whose resolved target equals the
    resolved source, the call returns immediately, touching nothing and
    emitting no output. -/
theorem symlink_step_idempotent (fs : FS) (cwd : List String)
    (source dest : FPath) (b ok : Bool) :
    ((create_symlink (create_symlink fs cwd source dest b ok).fs
        cwd source dest b ok).fs
      = (create_symlink fs cwd source dest b ok).fs)
    ∧ (∀ t, fs.lookup (abspath cwd dest) = some (Entry.symlink t) →
        abspath cwd source = abspath cwd t →
        create_symlink fs cwd source dest b ok = ⟨fs, [], [], false⟩) := by
  constructor
  · cases hl : fs.lookup (abspath cwd dest) with
    | none =>
      have h1 : create_symlink fs cwd source dest b ok
          = attemptLink fs cwd source (abspath cwd dest) b ok := by
        simp [create_symlink, hl]
      rw [h1]
      exact attemptLink_idem fs cwd source dest b ok hl
    | some e =>
      cases e with
      | symlink t =>
        by_cases he : abspath cwd source = abspath cwd t
        · rw [create_symlink_correct_link fs cwd source dest b ok t hl he,
            create_symlink_correct_link fs cwd source dest b ok t hl he]
        · have h1 : create_symlink fs cwd source dest b ok
              = attemptLink (fs.erase (abspath cwd dest)) cwd source
                  (abspath cwd dest) b ok := by
            simp [create_symlink, hl, he]
          rw [h1]
          exact attemptLink_idem (fs.erase (abspath cwd dest)) cwd source dest b ok
            (by simp [FS.lookup_erase])
      | file c =>
        rw [create_symlink_nonlink fs cwd source dest b ok (Entry.file c) hl rfl,
          create_symlink_nonlink fs cwd source dest b ok (Entry.file c) hl rfl]
      | dir =>
        rw [create_symlink_nonlink fs cwd source dest b ok Entry.dir hl rfl,
          create_symlink_nonlink fs cwd source dest b ok Entry.dir hl rfl]
  · intro t ht he
    exact create_symlink_correct_link fs cwd source dest b ok t ht he

theorem symlink_step_idempotent_witness :
    create_symlink [(["d"], Entry.symlink ⟨true, ["s"]⟩)] []
        ⟨true, ["s"]⟩ ⟨true, ["d"]⟩ true true
      = ⟨[(["d"], Entry.symlink ⟨true, ["s"]⟩)], [], [], false⟩ :=
  (symlink_step_idempotent [(["d"], Entry.symlink ⟨true, ["s"]⟩)] []
      ⟨true, ["s"]⟩ ⟨true, ["d"]⟩ true true).2
    ⟨true, ["s"]⟩ (by decide) (by decide)

/-- C3: the symlink step never destructively overwrites a real
    (non-symlink) entry: when the destination holds a non-symlink entry the
    call leaves the filesystem unchanged and records the skip warning, and
    when the destination is a symlink resolving elsewhere and `os.symlink`
    succeeds, the destination ends up as a symlink to the requested source. -/
theorem symlink_step_no_overwrite (fs : FS) (cwd : List String)
    (source dest : FPath) (b ok : Bool) :
    (∀ e, fs.lookup (abspath cwd dest) = some e → e.isSymlink = false →
      (create_symlink fs cwd source dest b ok).fs = fs ∧
      msgSkip (abspath cwd dest) ∈ (create_symlink fs cwd source dest b ok).warnings)
    ∧ (∀ t, fs.lookup (abspath cwd dest) = some (Entry.symlink t) →
        abspath cwd source ≠ abspath cwd t → ok = true →
        ((create_symlink fs cwd source dest b ok).fs).lookup (abspath cwd dest)
          = some (Entry.symlink source)) := by
  constructor
  · intro e he hs
    rw [create_symlink_nonlink fs cwd source dest b ok e he hs]
    exact ⟨rfl, by simp⟩
  · intro t ht hne hok
    subst hok
    have h1 : create_symlink fs cwd source dest b true
        = attemptLink (fs.erase (abspath cwd dest)) cwd source
            (abspath cwd dest) b true := by
      simp [create_symlink, ht, hne]
    rw [h1]
    simp [attemptLink, FS.lookup_insert]

theorem symlink_step_no_overwrite_witness :
    (create_symlink [(["d"], Entry.file "real")] []
        ⟨true, ["s"]⟩ ⟨true, ["d"]⟩ false true).fs
      = [(["d"], Entry.file "real")]
    ∧ msgSkip ["d"] ∈ (create_symlink [(["d"], Entry.file "real")] []
        ⟨true, ["s"]⟩ ⟨true, ["d"]⟩ false true).warnings :=
  (symlink_step_no_overwrite [(["d"], Entry.file "real")] []
      ⟨true, ["s"]⟩ ⟨true, ["d"]⟩ false true).1
    (Entry.file "real") (by decide) (by decide)

/-- C4: when `os.symlink` raises an `OSError`, the step falls back to a
    copy: for a directory source every entry of the source subtree appears
    (with identical content) at the corresponding path below the
    destination, for a file source the destination receives the file's
    content, and in both cases the fallback warning and the
    not-zero-copy warning are recorded and no exception escapes. -/
theorem symlink_step_fallback (fs : FS) (cwd : List String) (source dest : FPath)
    (hReach : fs.lookup (abspath cwd dest) = none ∨
      ∃ t, fs.lookup (abspath cwd dest) = some (Entry.symlink t) ∧
        abspath cwd source ≠ abspath cwd t)
    (hNotUnder : pathStartsWith (abspath cwd dest) (abspath cwd source) = false) :
    ((fs.lookup (abspath cwd source) = some Entry.dir →
      (∀ pe ∈ fs, pathStartsWith pe.1 (abspath cwd source) = true →
        pe.2.isSymlink = false) →
      (create_symlink fs cwd source dest true false).raised = false ∧
      msgFallback ∈ (create_symlink fs cwd source dest true false).warnings ∧
      msgNotZeroCopy ∈ (create_symlink fs cwd source dest true false).warnings ∧
      ∀ s e, fs.lookup (abspath cwd source ++ s) = some e →
        ((create_symlink fs cwd source dest true false).fs).lookup
          (abspath cwd dest ++ s) = some e))
    ∧ (∀ c, fs.lookup (abspath cwd source) = some (Entry.file c) →
      (create_symlink fs cwd source dest false false).raised = false ∧
      msgFallback ∈ (create_symlink fs cwd source dest false false).warnings ∧
      msgNotZeroCopy ∈ (create_symlink fs cwd source dest false false).warnings ∧
      ((create_symlink fs cwd source dest false false).fs).lookup
        (abspath cwd dest) = some (Entry.file c)) := by
  have key : ∀ b : Bool, ∃ fs2,
      create_symlink fs cwd source dest b false
        = attemptLink fs2 cwd source (abspath cwd dest) b false
      ∧ ∀ s, fs2.lookup (abspath cwd source ++ s)
          = fs.lookup (abspath cwd source ++ s) := by
    intro b
    rcases hReach with hnone | ⟨t, ht, hne⟩
    · exact ⟨fs, by simp [create_symlink, hnone], fun s => rfl⟩
    · refine ⟨fs.erase (abspath cwd dest), by simp [create_symlink, ht, hne],
        fun s => ?_⟩
      have hd : abspath cwd source ++ s ≠ abspath cwd dest := by
        intro he
        rw [← he, pathStartsWith_append] at hNotUnder
        cases hNotUnder
      rw [FS.lookup_erase, if_neg hd]
  constructor
  · intro hdir _
    obtain ⟨fs2, heq, hpres⟩ := key true
    have hdir2 : fs2.lookup (abspath cwd source) = some Entry.dir := by
      have := hpres []
      simp only [List.append_nil] at this
      rw [this, hdir]
    have hres : fs2.resolve 40 (abspath cwd source)
        = some (abspath cwd source, Entry.dir) := by
      rw [show (40 : Nat) = 39 + 1 from rfl]
      exact FS.resolve_dir fs2 _ 39 hdir2
    have hAL : attemptLink fs2 cwd source (abspath cwd dest) true false
        = ⟨relocate fs2 (abspath cwd source) (abspath cwd dest) ++ fs2,
           [msgFallback, msgNotZeroCopy], [], false⟩ := by
      simp [attemptLink, copytreeFS, hres]
    rw [heq, hAL]
    refine ⟨rfl, by simp, by simp, ?_⟩
    intro s e hse
    rw [FS.lookup_append, relocate_lookup_under, hpres s, hse]
  · intro c hfile
    obtain ⟨fs2, heq, hpres⟩ := key false
    have hfile2 : fs2.lookup (abspath cwd source) = some (Entry.file c) := by
      have := hpres []
      simp only [List.append_nil] at this
      rw [this, hfile]
    have hres : fs2.resolve 40 (abspath cwd source)
        = some (abspath cwd source, Entry.file c) := by
      rw [show (40 : Nat) = 39 + 1 from rfl]
      exact FS.resolve_file fs2 _ 39 c hfile2
    have hAL : attemptLink fs2 cwd source (abspath cwd dest) false false
        = ⟨fs2.insert (abspath cwd dest) (Entry.file c),
           [msgFallback, msgNotZeroCopy], [], false⟩ := by
      simp [attemptLink, copy2FS, hres]
    rw [heq, hAL]
    refine ⟨rfl, by simp, by simp, ?_⟩
    simp [FS.lookup_insert]

theorem symlink_step_fallback_witness :
    (create_symlink [(["s"], Entry.dir), (["s", "f"], Entry.file "x")] []
        ⟨true, ["s"]⟩ ⟨true, ["d"]⟩ true false).raised = false
    ∧ ((create_symlink [(["s"], Entry.dir), (["s", "f"], Entry.file "x")] []
        ⟨true, ["s"]⟩ ⟨true, ["d"]⟩ true false).fs).lookup ["d", "f"]
        = some (Entry.file "x") := by
  have h := (symlink_step_fallback
    [(["s"], Entry.dir), (["s", "f"], Entry.file "x")] []
    ⟨true, ["s"]⟩ ⟨true, ["d"]⟩ (Or.inl (by decide)) (by decide)).1
    (by decide) (by decide)
  exact ⟨h.1, by
    have := h.2.2.2 ["f"] (Entry.file "x") (by decide)
    simpa using this⟩

example :
    (packagePhase [] ["p"] [(["python"], "PY")] [] [] true false true 0).scanRan
      = false := by decide

example :
    (packagePhase [] ["p"] [(["python"], "PY")] [] [] true true true 1).scanFatal
      = true := by decide


/-- C1: whenever cross-compilation is detected, `config_options` removes
    `fips` from the recipe's effective option set, for every input option
    state. -/
theorem fips_absent_when_cross_building (cppstdOk : Bool)
    (opts opts2 : OptionsState)
    (h : config_options true cppstdOk opts = Except.ok opts2) :
    opts2.fips = none := by
  cases cppstdOk with
  | true =>
    simp [config_options] at h
    rw [← h]
  | false => simp [config_options] at h

theorem fips_absent_when_cross_building_witness :
    config_options true true ⟨false, some false, "2", true⟩
      = Except.ok ⟨false, none, "2", true⟩
    ∧ (⟨false, none, "2", true⟩ : OptionsState).fips = none :=
  ⟨rfl, fips_absent_when_cross_building true ⟨false, some false, "2", true⟩
    ⟨false, none, "2", true⟩ rfl⟩

/-- C5: for every supported host OS value the build dispatch invokes
    exactly one of the three strategies, and no OS value ever invokes more
    than one. -/
theorem build_selects_one_strategy (os : String) :
    (os = "Linux" ∨ os = "FreeBSD" ∨ os = "Windows" ∨ os = "Macos" →
      (build os).length = 1)
    ∧ (build os).length ≤ 1 := by
  constructor
  · rintro (rfl | rfl | rfl | rfl) <;> decide
  · by_cases h1 : os = "Linux" ∨ os = "FreeBSD" <;>
      by_cases h2 : os = "Windows" <;>
      by_cases h3 : os = "Macos" <;>
      simp [build, h1, h2, h3]

theorem build_selects_one_strategy_witness : (build "Windows").length = 1 :=
  (build_selects_one_strategy "Windows").1 (Or.inr (Or.inr (Or.inl rfl)))

/-- C7: for `optimize="3"` and `os="Windows"`, the interpreter path
    published as `tools.python:python` is `python.exe` under the package's
    primary `bin` directory, the published optimize level is `"3"`, and
    `_get_python_executable` yields `python.exe` under the zero-copy
    mirror's `bin` when `enable_zero_copy` is enabled, and under the
    primary `bin` otherwise. -/
theorem windows_interpreter_path (pf : List String) (zc : Bool)
    (fips : Option Bool) :
    (package_info pf "Windows" "3" zc fips).1.confPython
        = pf ++ ["bin", "python.exe"]
    ∧ (package_info pf "Windows" "3" zc fips).1.confOptimize = "3"
    ∧ get_python_executable pf "Windows" zc
        = (if zc then pf ++ [toolchain_path] else pf) ++ ["bin", "python.exe"] := by
  rcases fips with _ | b
  · cases zc <;> simp [package_info, get_python_executable, toolchain_path]
  · cases zc <;> cases b <;>
      simp [package_info, get_python_executable, toolchain_path]

theorem packagePhase_fs (fs0 : FS) (pf : List String)
    (bms lms sms : List (List String × String)) (zc canRun ok : Bool)
    (exitc : Nat) :
    (packagePhase fs0 pf bms lms sms zc canRun ok exitc).fs
      = (packageStage fs0 pf bms lms sms zc ok).1 := by
  unfold packagePhase
  cases h2 : (packageStage fs0 pf bms lms sms zc ok).2.2 <;> cases canRun <;>
    simp [h2]

/-- C9: when the configuration cannot run binaries (`can_run` false), the
    package phase never invokes the vulnerability scan and no scan failure
    can abort it, for every configuration and staging outcome. -/
theorem scan_skipped_when_cannot_run (fs0 : FS) (pf : List String)
    (bms lms sms : List (List String × String)) (zc ok : Bool) (exitc : Nat) :
    (packagePhase fs0 pf bms lms sms zc false ok exitc).scanRan = false
    ∧ (packagePhase fs0 pf bms lms sms zc false ok exitc).scanFatal = false := by
  unfold packagePhase
  cases h2 : (packageStage fs0 pf bms lms sms zc ok).2.2 <;> simp [h2]

/-- C6: a vulnerability-scan exit code of 1 during packaging is fatal:
    whenever the package phase reaches the scan (`can_run` holds and no
    staging exception occurred), the scan runs, `self.run` raises, and the
    package is not publishable. -/
theorem scan_exit_one_fatal (fs0 : FS) (pf : List String)
    (bms lms sms : List (List String × String)) (zc ok : Bool)
    (h : (packagePhase fs0 pf bms lms sms zc true ok 1).symlinkRaised = false) :
    (packagePhase fs0 pf bms lms sms zc true ok 1).scanRan = true
    ∧ (packagePhase fs0 pf bms lms sms zc true ok 1).scanFatal = true
    ∧ (packagePhase fs0 pf bms lms sms zc true ok 1).publishable = false := by
  unfold packagePhase at h ⊢
  cases h2 : (packageStage fs0 pf bms lms sms zc ok).2.2 with
  | true => simp [h2] at h
  | false => simp [h2, PackageResult.publishable]

theorem scan_exit_one_fatal_witness :
    (packagePhase [] ["p"] [] [] [] false true true 1).scanFatal = true :=
  (scan_exit_one_fatal [] ["p"] [] [] [] false true (by decide)).2.1

theorem pathStartsWith_append_left (pf a b : List String) :
    pathStartsWith (pf ++ a) (pf ++ b) = pathStartsWith a b := by
  induction pf with
  | nil => rfl
  | cons x pf ih => simp [pathStartsWith, ih]

theorem pathStartsWith_cons_ne (a b : String) (p q : List String) (h : a ≠ b) :
    pathStartsWith (a :: p) (b :: q) = false := by
  simp [pathStartsWith, h]

theorem pathStartsWith_cons_single (x item : String) (rest : List String) :
    pathStartsWith (x :: rest) [item] = true ↔ x = item := by
  by_cases h : x = item <;> simp [pathStartsWith, h]

theorem foldlInsert_lookup_outside (dst p : List String)
    (h : pathStartsWith p dst = false) :
    ∀ (ms : List (List String × String)) (acc : FS),
      (ms.foldl (fun acc m => acc.insert (dst ++ m.1) (Entry.file m.2)) acc).lookup p
        = acc.lookup p := by
  intro ms
  induction ms with
  | nil => intro acc; rfl
  | cons m rest ih =>
    intro acc
    rw [List.foldl_cons, ih]
    have hne : p ≠ dst ++ m.1 := by
      intro he
      rw [he, pathStartsWith_append] at h
      cases h
    rw [FS.lookup_insert, if_neg hne]

theorem conanCopy_lookup_outside (fs : FS) (dst : List String)
    (ms : List (List String × String)) (p : List String)
    (h : pathStartsWith p dst = false) :
    (conanCopy fs dst ms).lookup p = fs.lookup p := by
  have hne : p ≠ dst := by
    intro he
    rw [he, pathStartsWith_refl] at h
    cases h
  unfold conanCopy
  split
  · rfl
  · rw [foldlInsert_lookup_outside dst p h ms _, FS.lookup_insert, if_neg hne]

theorem foldlInsert_lookup_dst (dst : List String) :
    ∀ (ms : List (List String × String)) (acc : FS),
      (∀ m ∈ ms, m.1 ≠ []) →
      (ms.foldl (fun acc m => acc.insert (dst ++ m.1) (Entry.file m.2)) acc).lookup dst
        = acc.lookup dst := by
  intro ms
  induction ms with
  | nil => intro acc _; rfl
  | cons m rest ih =>
    intro acc hms
    rw [List.foldl_cons, ih _ (fun x hx => hms x (by simp [hx]))]
    have hne : dst ≠ dst ++ m.1 := by
      intro he
      have hlen := congrArg List.length he
      simp only [List.length_append] at hlen
      have : m.1.length = 0 := by omega
      exact hms m (by simp) (List.eq_nil_of_length_eq_zero this)
    rw [FS.lookup_insert, if_neg hne]

theorem conanCopy_lookup_dst (fs : FS) (dst : List String)
    (ms : List (List String × String)) (hms : ∀ m ∈ ms, m.1 ≠ []) :
    (conanCopy fs dst ms).lookup dst = fs.lookup dst
    ∨ (conanCopy fs dst ms).lookup dst = some Entry.dir := by
  unfold conanCopy
  split
  · exact Or.inl rfl
  · right
    rw [foldlInsert_lookup_dst dst ms _ hms, FS.lookup_insert, if_pos rfl]

theorem copytreeFS_lookup_outside (fs : FS) (src dst : List String) (fs2 : FS)
    (h : copytreeFS fs src dst = some fs2) (p : List String)
    (hp : pathStartsWith p dst = false) : fs2.lookup p = fs.lookup p := by
  unfold copytreeFS at h
  cases hr : fs.resolve 40 src with
  | none => rw [hr] at h; cases h
  | some qe =>
    obtain ⟨q, e⟩ := qe
    rw [hr] at h
    cases e with
    | file c => cases h
    | symlink t => cases h
    | dir =>
      injection h with h
      subst h
      rw [FS.lookup_append, relocate_lookup_not_under fs q dst p hp]

theorem copy2FS_lookup_outside (fs : FS) (src dst : List String) (fs2 : FS)
    (h : copy2FS fs src dst = some fs2) (p : List String) (hne : p ≠ dst) :
    fs2.lookup p = fs.lookup p := by
  unfold copy2FS at h
  cases hr : fs.resolve 40 src with
  | none => rw [hr] at h; cases h
  | some qe =>
    obtain ⟨q, e⟩ := qe
    rw [hr] at h
    cases e with
    | file c =>
      injection h with h
      subst h
      rw [FS.lookup_insert, if_neg hne]
    | dir => cases h
    | symlink t => cases h

theorem create_symlink_lookup_outside (fs : FS) (cwd : List String)
    (source dest : FPath) (b ok : Bool) (p : List String)
    (h : pathStartsWith p (abspath cwd dest) = false) :
    ((create_symlink fs cwd source dest b ok).fs).lookup p = fs.lookup p := by
  have hne : p ≠ abspath cwd dest := by
    intro he
    rw [he, pathStartsWith_refl] at h
    cases h
  have hAL : ∀ fsIn : FS,
      ((attemptLink fsIn cwd source (abspath cwd dest) b ok).fs).lookup p
        = fsIn.lookup p := by
    intro fsIn
    cases ok with
    | true => simp [attemptLink, FS.lookup_insert, hne]
    | false =>
      cases b with
      | true =>
        cases hcp : copytreeFS fsIn (abspath cwd source) (abspath cwd dest) with
        | some fs2 =>
          simp only [attemptLink, Bool.false_eq_true, if_false, hcp]
          exact copytreeFS_lookup_outside fsIn _ _ fs2 hcp p h
        | none => simp [attemptLink, hcp]
      | false =>
        cases hcp : copy2FS fsIn (abspath cwd source) (abspath cwd dest) with
        | some fs2 =>
          simp only [attemptLink, Bool.false_eq_true, if_false, hcp]
          exact copy2FS_lookup_outside fsIn _ _ fs2 hcp p hne
        | none => simp [attemptLink, hcp]
  cases hl : fs.lookup (abspath cwd dest) with
  | none =>
    have h1 : create_symlink fs cwd source dest b ok
        = attemptLink fs cwd source (abspath cwd dest) b ok := by
      simp [create_symlink, hl]
    rw [h1, hAL]
  | some e =>
    cases e with
    | symlink t =>
      by_cases he : abspath cwd source = abspath cwd t
      · rw [create_symlink_correct_link fs cwd source dest b ok t hl he]
      · have h1 : create_symlink fs cwd source dest b ok
            = attemptLink (fs.erase (abspath cwd dest)) cwd source
                (abspath cwd dest) b ok := by
          simp [create_symlink, hl, he]
        rw [h1, hAL, FS.lookup_erase, if_neg hne]
    | file c =>
      rw [create_symlink_nonlink fs cwd source dest b ok (Entry.file c) hl rfl]
    | dir =>
      rw [create_symlink_nonlink fs cwd source dest b ok Entry.dir hl rfl]

theorem create_symlink_lookup_origin (fs : FS) (cwd : List String)
    (source dest : FPath) (b ok : Bool) (p : List String)
    (h : ((create_symlink fs cwd source dest b ok).fs).lookup p ≠ none) :
    fs.lookup p ≠ none ∨ pathStartsWith p (abspath cwd dest) = true := by
  cases hp : pathStartsWith p (abspath cwd dest) with
  | true => exact Or.inr rfl
  | false =>
    left
    rw [create_symlink_lookup_outside fs cwd source dest b ok p hp] at h
    exact h

/-- C8: with `enable_zero_copy=false` the package phase leaves everything
    at or below `cpython-toolchain` exactly as it found it (so no mirror
    directory is created), and `package_info` publishes only the primary
    `bin`/`lib` directories: no `PYTHON_ROOT` definition and no extra
    `PATH` search-path entry in either environment. -/
theorem no_zero_copy_frame (fs0 : FS) (pf : List String)
    (bms lms sms : List (List String × String)) (canRun ok : Bool)
    (exitc : Nat) (osStr optimize : String) (fips : Option Bool) :
    (∀ q, ((packagePhase fs0 pf bms lms sms false canRun ok exitc).fs).lookup
        (pf ++ "cpython-toolchain" :: q)
      = fs0.lookup (pf ++ "cpython-toolchain" :: q))
    ∧ (package_info pf osStr optimize false fips).1.bindirs = [pf ++ ["bin"]]
    ∧ (package_info pf osStr optimize false fips).1.libdirs = [pf ++ ["lib"]]
    ∧ (package_info pf osStr optimize false fips).1.buildenvPathAppends = []
    ∧ (package_info pf osStr optimize false fips).1.runenvPathAppends = []
    ∧ (∀ v, ("PYTHON_ROOT", v) ∉
        (package_info pf osStr optimize false fips).1.buildenvPathDefines)
    ∧ (∀ v, ("PYTHON_ROOT", v) ∉
        (package_info pf osStr optimize false fips).1.runenvPathDefines) := by
  have hinfo : (package_info pf osStr optimize false fips).1.bindirs = [pf ++ ["bin"]]
      ∧ (package_info pf osStr optimize false fips).1.libdirs = [pf ++ ["lib"]]
      ∧ (package_info pf osStr optimize false fips).1.buildenvPathAppends = []
      ∧ (package_info pf osStr optimize false fips).1.runenvPathAppends = []
      ∧ (package_info pf osStr optimize false fips).1.buildenvPathDefines
          = [("PYTHONHOME", pf)]
      ∧ (package_info pf osStr optimize false fips).1.runenvPathDefines
          = [("PYTHONHOME", pf)] := by
    rcases fips with _ | b
    · simp [package_info]
    · cases b <;> simp [package_info]
  have hmem : ∀ v : List String, ("PYTHON_ROOT", v) ∉ [(("PYTHONHOME" : String), pf)] := by
    intro v hv
    rw [List.mem_singleton, Prod.mk.injEq] at hv
    exact absurd hv.1 (by decide)
  refine ⟨?_, hinfo.1, hinfo.2.1, hinfo.2.2.1, hinfo.2.2.2.1,
    fun v => by rw [hinfo.2.2.2.2.1]; exact hmem v,
    fun v => by rw [hinfo.2.2.2.2.2]; exact hmem v⟩
  intro q
  have hfs : (packagePhase fs0 pf bms lms sms false canRun ok exitc).fs
      = conanCopy (conanCopy (conanCopy fs0 (pf ++ ["bin"]) bms)
          (pf ++ ["lib"]) lms) (pf ++ ["lib", "python3.12"]) sms := by
    rw [packagePhase_fs]
    rfl
  have hb : pathStartsWith (pf ++ "cpython-toolchain" :: q) (pf ++ ["bin"]) = false := by
    rw [pathStartsWith_append_left]
    exact pathStartsWith_cons_ne _ _ _ _ (by decide)
  have hl : pathStartsWith (pf ++ "cpython-toolchain" :: q) (pf ++ ["lib"]) = false := by
    rw [pathStartsWith_append_left]
    exact pathStartsWith_cons_ne _ _ _ _ (by decide)
  have hs : pathStartsWith (pf ++ "cpython-toolchain" :: q)
      (pf ++ ["lib", "python3.12"]) = false := by
    rw [pathStartsWith_append_left]
    exact pathStartsWith_cons_ne _ _ _ _ (by decide)
  rw [hfs, conanCopy_lookup_outside _ _ _ _ hs, conanCopy_lookup_outside _ _ _ _ hl,
    conanCopy_lookup_outside _ _ _ _ hb]

theorem zeroCopyLoop_lookup_outside (pf troot : List String) (ok : Bool)
    (p : List String) :
    ∀ (items : List String) (fs : FS),
      (∀ item ∈ items, pathStartsWith p (troot ++ [item]) = false) →
      ((zeroCopyLoop fs pf troot ok items).1).lookup p = fs.lookup p := by
  intro items
  induction items with
  | nil => intro fs _; rfl
  | cons item rest ih =>
    intro fs h
    have hrest : ∀ i ∈ rest, pathStartsWith p (troot ++ [i]) = false :=
      fun i hi => h i (by simp [hi])
    have hcs : ((create_symlink fs [] ⟨true, pf ++ [item]⟩ ⟨true, troot ++ [item]⟩
        true ok).fs).lookup p = fs.lookup p :=
      create_symlink_lookup_outside fs [] _ _ true ok p (h item (by simp))
    cases hex : fs.pexists (pf ++ [item]) with
    | false =>
      simp only [zeroCopyLoop, hex]
      rw [if_neg (by simp)]
      exact ih fs hrest
    | true =>
      cases hr : (create_symlink fs [] ⟨true, pf ++ [item]⟩
          ⟨true, troot ++ [item]⟩ true ok).raised with
      | true => simp [zeroCopyLoop, hex, hr, hcs]
      | false => simp [zeroCopyLoop, hex, hr, ih _ hrest, hcs]

theorem zeroCopyLoop_lookup_origin (pf troot : List String) (ok : Bool)
    (p : List String) :
    ∀ (items : List String) (fs : FS),
      ((zeroCopyLoop fs pf troot ok items).1).lookup p ≠ none →
      fs.lookup p ≠ none
      ∨ ∃ item, item ∈ items ∧ pathStartsWith p (troot ++ [item]) = true := by
  intro items
  induction items with
  | nil => intro fs h; exact Or.inl h
  | cons item rest ih =>
    intro fs h
    cases hex : fs.pexists (pf ++ [item]) with
    | false =>
      rw [show (zeroCopyLoop fs pf troot ok (item :: rest))
          = zeroCopyLoop fs pf troot ok rest by
        simp only [zeroCopyLoop, hex]; rw [if_neg (by simp)]] at h
      rcases ih fs h with h1 | ⟨i, hi, hp⟩
      · exact Or.inl h1
      · exact Or.inr ⟨i, by simp [hi], hp⟩
    | true =>
      cases hr : (create_symlink fs [] ⟨true, pf ++ [item]⟩
          ⟨true, troot ++ [item]⟩ true ok).raised with
      | true =>
        simp only [zeroCopyLoop, hex, hr] at h
        simp only [if_true] at h
        rcases create_symlink_lookup_origin fs [] _ _ true ok p h with h1 | h2
        · exact Or.inl h1
        · exact Or.inr ⟨item, by simp, h2⟩
      | false =>
        simp only [zeroCopyLoop, hex, hr] at h
        simp only [if_true, Bool.false_eq_true, if_false] at h
        rcases ih _ h with h1 | ⟨i, hi, hp⟩
        · rcases create_symlink_lookup_origin fs [] _ _ true ok p h1 with h2 | h3
          · exact Or.inl h2
          · exact Or.inr ⟨item, by simp, h3⟩
        · exact Or.inr ⟨i, by simp [hi], hp⟩

theorem zeroCopyLoop_gating (pf troot : List String) (ok : Bool) (x : String) :
    ∀ (items : List String) (fs : FS),
      (∀ i ∈ items, pathStartsWith (pf ++ [i]) troot = false) →
      (∀ i ∈ items, fs.lookup (pf ++ [i]) = none
        ∨ fs.lookup (pf ++ [i]) = some Entry.dir) →
      ((zeroCopyLoop fs pf troot ok items).1).lookup (troot ++ [x]) ≠ none →
      fs.lookup (troot ++ [x]) ≠ none
      ∨ (x ∈ items ∧ fs.lookup (pf ++ [x]) = some Entry.dir) := by
  intro items
  induction items with
  | nil => intro fs _ _ h; exact Or.inl h
  | cons item rest ih =>
    intro fs hdisj hPrim h
    have hdisjR : ∀ i ∈ rest, pathStartsWith (pf ++ [i]) troot = false :=
      fun i hi => hdisj i (by simp [hi])
    have hsingle : ∀ i : String,
        pathStartsWith (troot ++ [x]) (troot ++ [i]) = true → x = i := by
      intro i hh
      rw [pathStartsWith_append_left] at hh
      exact (pathStartsWith_cons_single x i []).1 hh
    cases hex : fs.pexists (pf ++ [item]) with
    | false =>
      rw [show (zeroCopyLoop fs pf troot ok (item :: rest))
          = zeroCopyLoop fs pf troot ok rest by
        simp only [zeroCopyLoop, hex]; rw [if_neg (by simp)]] at h
      rcases ih fs hdisjR (fun i hi => hPrim i (by simp [hi])) h with h1 | ⟨hx, hdir⟩
      · exact Or.inl h1
      · exact Or.inr ⟨by simp [hx], hdir⟩
    | true =>
      have hdir_item : fs.lookup (pf ++ [item]) = some Entry.dir := by
        rcases hPrim item (by simp) with hn | hd
        · rw [FS.pexists_none fs _ hn] at hex
          cases hex
        · exact hd
      have hout : ∀ i ∈ rest, pathStartsWith (pf ++ [i]) (troot ++ [item]) = false := by
        intro i hi
        cases hps : pathStartsWith (pf ++ [i]) (troot ++ [item]) with
        | false => rfl
        | true =>
          have hm := pathStartsWith_mono (pf ++ [i]) troot [item] hps
          rw [hdisj i (by simp [hi])] at hm
          cases hm
      cases hr : (create_symlink fs [] ⟨true, pf ++ [item]⟩
          ⟨true, troot ++ [item]⟩ true ok).raised with
      | true =>
        simp only [zeroCopyLoop, hex, hr] at h
        simp only [if_true] at h
        rcases create_symlink_lookup_origin fs [] _ _ true ok _ h with h1 | h2
        · exact Or.inl h1
        · rcases hsingle item h2 with rfl
          exact Or.inr ⟨by simp, hdir_item⟩
      | false =>
        simp only [zeroCopyLoop, hex, hr] at h
        simp only [if_true, Bool.false_eq_true, if_false] at h
        have hPrimR : ∀ i ∈ rest,
            ((create_symlink fs [] ⟨true, pf ++ [item]⟩ ⟨true, troot ++ [item]⟩
              true ok).fs).lookup (pf ++ [i]) = none
            ∨ ((create_symlink fs [] ⟨true, pf ++ [item]⟩ ⟨true, troot ++ [item]⟩
              true ok).fs).lookup (pf ++ [i]) = some Entry.dir := by
          intro i hi
          rw [create_symlink_lookup_outside fs [] _ _ true ok _ (hout i hi)]
          exact hPrim i (by simp [hi])
        rcases ih _ hdisjR hPrimR h with h1 | ⟨hx, hdir⟩
        · rcases create_symlink_lookup_origin fs [] _ _ true ok _ h1 with h2 | h3
          · exact Or.inl h2
          · rcases hsingle item h3 with rfl
            exact Or.inr ⟨by simp, hdir_item⟩
        · have hout2 : pathStartsWith (pf ++ [x]) (troot ++ [item]) = false := by
            cases hps : pathStartsWith (pf ++ [x]) (troot ++ [item]) with
            | false => rfl
            | true =>
              have hm := pathStartsWith_mono (pf ++ [x]) troot [item] hps
              rw [hdisj x (by simp [hx])] at hm
              cases hm
          rw [create_symlink_lookup_outside fs [] _ _ true ok _ hout2] at hdir
          exact Or.inr ⟨by simp [hx], hdir⟩

theorem staged_toolchain_free (fs0 : FS) (pf : List String)
    (bms lms sms : List (List String × String))
    (hfresh : ∀ q, fs0.lookup (pf ++ "cpython-toolchain" :: q) = none) :
    ∀ q, (conanCopy (conanCopy (conanCopy fs0 (pf ++ ["bin"]) bms)
        (pf ++ ["lib"]) lms) (pf ++ ["lib", "python3.12"]) sms).lookup
      (pf ++ "cpython-toolchain" :: q) = none := by
  intro q
  rw [conanCopy_lookup_outside _ _ _ _ (by
      rw [pathStartsWith_append_left]
      exact pathStartsWith_cons_ne _ _ _ _ (by decide)),
    conanCopy_lookup_outside _ _ _ _ (by
      rw [pathStartsWith_append_left]
      exact pathStartsWith_cons_ne _ _ _ _ (by decide)),
    conanCopy_lookup_outside _ _ _ _ (by
      rw [pathStartsWith_append_left]
      exact pathStartsWith_cons_ne _ _ _ _ (by decide))]
  exact hfresh q

theorem staged_primaries (fs0 : FS) (pf : List String)
    (bms lms sms : List (List String × String))
    (hprim : ∀ x ∈ (["bin", "lib", "include"] : List String),
      fs0.lookup (pf ++ [x]) = none ∨ fs0.lookup (pf ++ [x]) = some Entry.dir)
    (hbm : ∀ m ∈ bms, m.1 ≠ []) (hlm : ∀ m ∈ lms, m.1 ≠ []) :
    ∀ x ∈ (["bin", "lib", "include"] : List String),
      (conanCopy (conanCopy (conanCopy fs0 (pf ++ ["bin"]) bms)
        (pf ++ ["lib"]) lms) (pf ++ ["lib", "python3.12"]) sms).lookup (pf ++ [x])
          = none
      ∨ (conanCopy (conanCopy (conanCopy fs0 (pf ++ ["bin"]) bms)
        (pf ++ ["lib"]) lms) (pf ++ ["lib", "python3.12"]) sms).lookup (pf ++ [x])
          = some Entry.dir := by
  intro x hx
  simp only [List.mem_cons, List.mem_singleton, List.not_mem_nil, or_false] at hx
  rcases hx with rfl | rfl | rfl
  · rw [conanCopy_lookup_outside _ _ _ _ (by
        rw [pathStartsWith_append_left]; decide),
      conanCopy_lookup_outside _ _ _ _ (by
        rw [pathStartsWith_append_left]; decide)]
    rcases conanCopy_lookup_dst fs0 (pf ++ ["bin"]) bms hbm with h | h
    · rw [h]
      exact hprim "bin" (by simp)
    · exact Or.inr h
  · rw [conanCopy_lookup_outside _ _ _ _ (by
        rw [pathStartsWith_append_left]; decide)]
    rcases conanCopy_lookup_dst (conanCopy fs0 (pf ++ ["bin"]) bms)
        (pf ++ ["lib"]) lms hlm with h | h
    · rw [h, conanCopy_lookup_outside _ _ _ _ (by
        rw [pathStartsWith_append_left]; decide)]
      exact hprim "lib" (by simp)
    · exact Or.inr h
  · rw [conanCopy_lookup_outside _ _ _ _ (by
        rw [pathStartsWith_append_left]; decide),
      conanCopy_lookup_outside _ _ _ _ (by
        rw [pathStartsWith_append_left]; decide),
      conanCopy_lookup_outside _ _ _ _ (by
        rw [pathStartsWith_append_left]; decide)]
    exact hprim "include" (by simp)

theorem mirror_shape_core (pf : List String) (ok : Bool) (fsA : FS)
    (hAfree : ∀ q, q ≠ [] →
      fsA.lookup ((pf ++ ["cpython-toolchain"]) ++ q) = none)
    (hAprim : ∀ x ∈ (["bin", "lib", "include"] : List String),
      fsA.lookup (pf ++ [x]) = none ∨ fsA.lookup (pf ++ [x]) = some Entry.dir) :
    (∀ x rest, ((zeroCopyLoop fsA pf (pf ++ ["cpython-toolchain"]) ok
        ["bin", "lib", "include"]).1).lookup
        ((pf ++ ["cpython-toolchain"]) ++ x :: rest) ≠ none →
      x ∈ (["bin", "lib", "include"] : List String))
    ∧ (∀ x ∈ (["bin", "lib", "include"] : List String),
        ((zeroCopyLoop fsA pf (pf ++ ["cpython-toolchain"]) ok
          ["bin", "lib", "include"]).1).lookup
          ((pf ++ ["cpython-toolchain"]) ++ [x]) ≠ none →
        ((zeroCopyLoop fsA pf (pf ++ ["cpython-toolchain"]) ok
          ["bin", "lib", "include"]).1).lookup (pf ++ [x]) = some Entry.dir) := by
  have hdisj : ∀ i ∈ (["bin", "lib", "include"] : List String),
      pathStartsWith (pf ++ [i]) (pf ++ ["cpython-toolchain"]) = false := by
    intro i hi
    rw [pathStartsWith_append_left]
    simp only [List.mem_cons, List.mem_singleton, List.not_mem_nil, or_false] at hi
    rcases hi with rfl | rfl | rfl <;> decide
  constructor
  · intro x rest h
    rcases zeroCopyLoop_lookup_origin pf (pf ++ ["cpython-toolchain"]) ok
        ((pf ++ ["cpython-toolchain"]) ++ x :: rest) ["bin", "lib", "include"]
        fsA h with h1 | ⟨i, hi, hp⟩
    · exact (h1 (hAfree (x :: rest) (List.cons_ne_nil x rest))).elim
    · rw [pathStartsWith_append_left] at hp
      have hx := (pathStartsWith_cons_single x i rest).1 hp
      subst hx
      exact hi
  · intro x hx h
    rcases zeroCopyLoop_gating pf (pf ++ ["cpython-toolchain"]) ok x
        ["bin", "lib", "include"] fsA hdisj hAprim h with h1 | ⟨_, hdir⟩
    · exact (h1 (hAfree [x] (List.cons_ne_nil x []))).elim
    · rw [zeroCopyLoop_lookup_outside pf (pf ++ ["cpython-toolchain"]) ok
        (pf ++ [x]) ["bin", "lib", "include"] fsA ?hside]
      · exact hdir
      · intro i hi
        rw [List.append_assoc]
        simp only [List.cons_append, List.nil_append]
        rw [pathStartsWith_append_left]
        simp only [List.mem_cons, List.mem_singleton, List.not_mem_nil, or_false] at hx
        rcases hx with rfl | rfl | rfl <;>
          exact pathStartsWith_cons_ne _ _ _ _ (by decide)

/-- C10: with `enable_zero_copy=true`, starting from a fresh package folder
    (nothing at or below `cpython-toolchain`, and each primary of
    `bin`/`lib`/`include` absent or a directory, as `conan.tools.files.copy`
    leaves them), the mirror directory contains at most the three entries
    `bin`, `lib` and `include`, and such an entry is present only when the
    corresponding primary directory exists in the package folder. -/
theorem zero_copy_mirror_shape (fs0 : FS) (pf : List String)
    (bms lms sms : List (List String × String)) (canRun ok : Bool) (exitc : Nat)
    (hfresh : ∀ q, fs0.lookup (pf ++ "cpython-toolchain" :: q) = none)
    (hprim : ∀ x ∈ (["bin", "lib", "include"] : List String),
      fs0.lookup (pf ++ [x]) = none ∨ fs0.lookup (pf ++ [x]) = some Entry.dir)
    (hbm : ∀ m ∈ bms, m.1 ≠ []) (hlm : ∀ m ∈ lms, m.1 ≠ []) :
    (∀ x rest, ((packagePhase fs0 pf bms lms sms true canRun ok exitc).fs).lookup
        (pf ++ "cpython-toolchain" :: x :: rest) ≠ none →
      x ∈ (["bin", "lib", "include"] : List String))
    ∧ (∀ x ∈ (["bin", "lib", "include"] : List String),
        ((packagePhase fs0 pf bms lms sms true canRun ok exitc).fs).lookup
          (pf ++ ["cpython-toolchain", x]) ≠ none →
        ((packagePhase fs0 pf bms lms sms true canRun ok exitc).fs).lookup
          (pf ++ [x]) = some Entry.dir) := by
  have htcnone : (conanCopy (conanCopy (conanCopy fs0 (pf ++ ["bin"]) bms)
      (pf ++ ["lib"]) lms) (pf ++ ["lib", "python3.12"]) sms).lookup
      (pf ++ ["cpython-toolchain"]) = none :=
    staged_toolchain_free fs0 pf bms lms sms hfresh []
  have hpex := FS.pexists_none _ _ htcnone
  have hstage : packageStage fs0 pf bms lms sms true ok
      = zeroCopyLoop ((conanCopy (conanCopy (conanCopy fs0 (pf ++ ["bin"]) bms)
          (pf ++ ["lib"]) lms) (pf ++ ["lib", "python3.12"]) sms).insert
          (pf ++ ["cpython-toolchain"]) Entry.dir)
        pf (pf ++ ["cpython-toolchain"]) ok ["bin", "lib", "include"] := by
    simp [packageStage, toolchain_path, hpex]
  have hAfree : ∀ q, q ≠ [] →
      (((conanCopy (conanCopy (conanCopy fs0 (pf ++ ["bin"]) bms)
          (pf ++ ["lib"]) lms) (pf ++ ["lib", "python3.12"]) sms).insert
          (pf ++ ["cpython-toolchain"]) Entry.dir)).lookup
        ((pf ++ ["cpython-toolchain"]) ++ q) = none := by
    intro q hq
    rw [FS.lookup_insert, if_neg (fun he => by
      have hlen := congrArg List.length he
      simp only [List.length_append] at hlen
      exact hq (List.eq_nil_of_length_eq_zero (by omega)))]
    have hpath : (pf ++ ["cpython-toolchain"]) ++ q
        = pf ++ "cpython-toolchain" :: q := by
      rw [List.append_assoc]
      rfl
    rw [hpath]
    exact staged_toolchain_free fs0 pf bms lms sms hfresh q
  have hAprim : ∀ x ∈ (["bin", "lib", "include"] : List String),
      (((conanCopy (conanCopy (conanCopy fs0 (pf ++ ["bin"]) bms)
          (pf ++ ["lib"]) lms) (pf ++ ["lib", "python3.12"]) sms).insert
          (pf ++ ["cpython-toolchain"]) Entry.dir)).lookup (pf ++ [x]) = none
      ∨ (((conanCopy (conanCopy (conanCopy fs0 (pf ++ ["bin"]) bms)
          (pf ++ ["lib"]) lms) (pf ++ ["lib", "python3.12"]) sms).insert
          (pf ++ ["cpython-toolchain"]) Entry.dir)).lookup (pf ++ [x])
        = some Entry.dir := by
    intro x hx
    rw [FS.lookup_insert, if_neg (fun he => by
      have h2 := List.append_cancel_left he
      injection h2 with h3 h4
      subst h3
      exact absurd hx (by decide))]
    exact staged_primaries fs0 pf bms lms sms hprim hbm hlm x hx
  have hcore := mirror_shape_core pf ok _ hAfree hAprim
  constructor
  · intro x rest h
    apply hcore.1 x rest
    have hpath : (pf ++ ["cpython-toolchain"]) ++ x :: rest
        = pf ++ "cpython-toolchain" :: x :: rest := by
      rw [List.append_assoc]
      rfl
    rw [hpath]
    rw [packagePhase_fs, hstage] at h
    exact h
  · intro x hx h
    rw [packagePhase_fs, hstage]
    apply hcore.2 x hx
    have hpath : (pf ++ ["cpython-toolchain"]) ++ [x]
        = pf ++ ["cpython-toolchain", x] := by
      rw [List.append_assoc]
      rfl
    rw [hpath]
    rw [packagePhase_fs, hstage] at h
    exact h

theorem zero_copy_mirror_shape_witness :
    ((packagePhase [(["p", "bin"], Entry.dir)] ["p"] [] [] [] true true true 0).fs).lookup
        (["p"] ++ ["bin"]) = some Entry.dir :=
  (zero_copy_mirror_shape [(["p", "bin"], Entry.dir)] ["p"] [] [] [] true true 0
    (by intro q; simp [FS.lookup]) (by decide) (by decide) (by decide)).2 "bin"
    (by decide) (by decide)

theorem windows_interpreter_path_witness :
    (package_info ["p"] "Windows" "3" true (some true)).1.confPython
      = ["p"] ++ ["bin", "python.exe"] :=
  (windows_interpreter_path ["p"] true (some true)).1

theorem no_zero_copy_frame_witness :
    ((packagePhase [] ["p"] [] [] [] false true true 0).fs).lookup
        (["p"] ++ "cpython-toolchain" :: [])
      = FS.lookup [] (["p"] ++ "cpython-toolchain" :: []) :=
  (no_zero_copy_frame [] ["p"] [] [] [] true true 0 "Linux" "2" (some false)).1 []

theorem scan_skipped_when_cannot_run_witness :
    (packagePhase [] ["p"] [] [] [] true false true 1).scanRan = false :=
  (scan_skipped_when_cannot_run [] ["p"] [] [] [] true true 1).1
